import Mathlib

/-!
# Verification of the VRM material-converter core

Shallow embedding of the two Blender add-on files
`vrm_cycles_simple_materials.py` and `vrm_eevee_simple_matgerials.py`:
the shading-graph data model, the upstream-image trace, the alpha and
emission role-inference heuristics, the material synthesizers' observable
outcome, and the per-slot conversion loop with its skip guard and cache.

Conventions of the embedding:
* Python floats are embedded as `Rat` (all arithmetic the claims touch is
  exact: comparisons, `max`/`min` clamps).
* A socket's `default_value` is a `List Rat`; a scalar socket holds a
  one-element list and is read with `scalarOf` (head), a color socket holds
  its component list, mirroring Python's `tuple(socket.default_value)`.
* Blender collections are lists in declaration order; `.get(name)` is
  `List.find?` on the name; a socket's `links` / `is_linked` are derived
  from the tree's link list, as in Blender.
* `try/except`-guarded attribute writes are modelled as succeeding (the
  schema the code itself creates has the attributes); where the source
  explicitly guards on an input's existence (`Emission Strength`), the
  model keeps that guard as a boolean flag.
* Node mutation is not modelled: each builder returns a record of the
  observable values it writes (ramp stops, emission strength, material
  flags, which alpha source got linked); the conversion loop returns the
  slot assignments, the cache, and the list of source materials on which
  inference + synthesis ran.
-/

/-- String helpers reimplemented on `List Char` so that they reduce in the
kernel.  `charsStartWith s p` is Python's `s.startswith(p)`. -/
def charsStartWith : List Char → List Char → Bool
  | _, [] => true
  | [], _ :: _ => false
  | c :: cs, p :: ps => c == p && charsStartWith cs ps

/-- Decides whether the second list occurs as a contiguous substring of the
first (Python's `p in s`). -/
def charsContain : List Char → List Char → Bool
  | [], pat => charsStartWith [] pat
  | c :: rest, pat => charsStartWith (c :: rest) pat || charsContain rest pat

def strStartsWith (s p : String) : Bool := charsStartWith s.data p.data

def strContains (s p : String) : Bool := charsContain s.data p.data

def lowerStr (s : String) : String := String.mk (s.data.map Char.toLower)

/-- Python's `name.replace(" ", "")`. -/
def stripSpaces (s : String) : String :=
  String.mk (s.data.filter (fun c => !(c == ' ')))

/-- Python's `any(k in nm for k in keys)`. -/
def nameHasKey (nm : String) (keys : List String) : Bool :=
  keys.any (fun k => strContains nm k)

/-- Boolean list membership, mirroring Python's `x in visited`. -/
def memB : List Nat → Nat → Bool
  | [], _ => false
  | x :: xs, s => x == s || memB xs s

/-- Association-list lookup, mirroring Python's `dict[key]` /
`key in dict` on the conversion cache. -/
def lookupA : List (Nat × Nat) → Nat → Option Nat
  | [], _ => none
  | (k, v) :: rest, m => if k = m then some v else lookupA rest m

/-- Occurrence count in a list of material ids. -/
def countOcc : List Nat → Nat → Nat
  | [], _ => 0
  | x :: xs, m => (if x = m then 1 else 0) + countOcc xs m

/-- The attributes of a Blender `Image` that the heuristics read:
`channels`, `alpha_mode`, `depth`. -/
structure Image where
  channels : Nat
  alpha_mode : String
  depth : Nat
deriving DecidableEq

/-- An input socket: identity, display name, socket type tag
(`RGBA`, `VECTOR`, `VALUE`, …) and its static default value. -/
structure InputSocket where
  sid : Nat
  name : String
  stype : String
  default_value : List Rat
deriving DecidableEq

/-- A node: identity, a `type` tag (`TEX_IMAGE`, `BSDF_PRINCIPLED`,
`GROUP`, `EMISSION`, …), a display name, an optional image reference, the
ordered input sockets, and (for groups) whether `node.node_tree` is
truthy.  Cosmetic attributes (location, interpolation, extension, uv map)
play no part in any claim and are omitted. -/
structure Node where
  nid : Nat
  ntype : String
  name : String
  image : Option Image
  inputs : List InputSocket
  has_node_tree : Bool
deriving DecidableEq

/-- A link records the source node (`link.from_node`) and the id of the
destination input socket (`link.to_socket`). -/
structure Link where
  fromNode : Nat
  toSocket : Nat
deriving DecidableEq

/-- A node tree: nodes and links, each in declaration order. -/
structure NodeTree where
  nodes : List Node
  links : List Link
deriving DecidableEq

/-- The slice of a Blender `Material` the inference code reads. -/
structure Material where
  use_nodes : Bool
  node_tree : Option NodeTree
  blend_method : String
deriving DecidableEq

/-- Reading a scalar socket's value (one-element `default_value`). -/
def scalarOf (l : List Rat) : Rat := l.headD 0

def nodeOf (g : NodeTree) (nid : Nat) : Option Node :=
  g.nodes.find? (fun n => n.nid == nid)

/-- Blender's `socket.is_linked`, derived from the tree's links. -/
def isLinkedSid (g : NodeTree) (sid : Nat) : Bool :=
  g.links.any (fun l => l.toSocket == sid)

/-- Blender's `socket.links`, derived from the tree's links, in link order. -/
def socketLinks (g : NodeTree) (sid : Nat) : List Link :=
  g.links.filter (fun l => l.toSocket == sid)

/-- Python's `getattr(n, "inputs", [])` for a possibly-missing node. -/
def inputsOf : Option Node → List InputSocket
  | some n => n.inputs
  | none => []

/-- Source `_is_image_node(n)`: `n and n.type == 'TEX_IMAGE' and
getattr(n, "image", None) is not None` (identical in both files). -/
def is_image_node : Option Node → Bool
  | some n => n.ntype == "TEX_IMAGE" && n.image.isSome
  | none => false

/-- The `_is_image_node` test applied to a node that is known to exist. -/
def isImageNodeB (n : Node) : Bool := n.ntype == "TEX_IMAGE" && n.image.isSome

/-- Python's `base_img_node and base_img_node.image` (truthiness test used all over
both files, including on `alpha_mode[1]`). -/
def hasImage : Option Node → Bool
  | some n => n.image.isSome
  | none => false

/-!
## `_find_upstream_image_from_socket`

Transcribed from `vrm_eevee_simple_matgerials.py` lines 27-48 and
`vrm_cycles_simple_materials.py` lines 29-55; the two bodies differ only
in how the entry guards and the depth guard are phrased (`if sock is None
or sock in visited` vs. two separate `if`s; `if max_depth <= 0: continue`
vs. `if max_depth > 0:` around the inner loop) and are the same function.

The Python function mutates one `visited` set shared across the whole call
tree and returns the found node; the embedding threads the visited list
explicitly and returns the pair (found node, visited after the call).
Recursion is structural on the depth budget: the source recurses only when
`max_depth > 0`, always with `max_depth - 1`, so the budget is the
recursion fuel; at fuel 0 no recursion callback is available (`continue`).
-/

/-- The inner loop `for inp in getattr(n, "inputs", []): if inp.is_linked:
found = recurse(inp, max_depth - 1, visited); if found: return found`. -/
def upstream_inputs_loop (g : NodeTree)
    (recur : Nat → List Nat → Option Node × List Nat) :
    List InputSocket → List Nat → Option Node × List Nat
  | [], visited => (none, visited)
  | inp :: rest, visited =>
    if isLinkedSid g inp.sid then
      let r := recur inp.sid visited
      match r.1 with
      | some found => (some found, r.2)
      | none => upstream_inputs_loop g recur rest r.2
    else upstream_inputs_loop g recur rest visited

/-- The outer loop `for link in sock.links: n = link.from_node; if
_is_image_node(n): return n; …inner loop…`.  `recur?` is `none` when the
depth budget is exhausted (the source's `continue`). -/
def upstream_links_loop (g : NodeTree)
    (recur? : Option (Nat → List Nat → Option Node × List Nat)) :
    List Link → List Nat → Option Node × List Nat
  | [], visited => (none, visited)
  | l :: rest, visited =>
    let n := nodeOf g l.fromNode
    if is_image_node n then (n, visited)
    else
      match recur? with
      | none => upstream_links_loop g none rest visited
      | some recur =>
        let r := upstream_inputs_loop g recur (inputsOf n) visited
        match r.1 with
        | some found => (some found, r.2)
        | none => upstream_links_loop g (some recur) rest r.2

/-- Function entry: the `sock is None` / `sock in visited` guards,
`visited.add(sock)`, and the `not sock.is_linked` early return. -/
def upstream_step (g : NodeTree)
    (recur? : Option (Nat → List Nat → Option Node × List Nat)) :
    Option Nat → List Nat → Option Node × List Nat
  | none, visited => (none, visited)
  | some s, visited =>
    if memB visited s then (none, visited)
    else
      let visited2 := s :: visited
      if isLinkedSid g s then upstream_links_loop g recur? (socketLinks g s) visited2
      else (none, visited2)

/-- Source `_find_upstream_image_from_socket(sock, max_depth, visited)`. -/
def find_upstream_image_from_socket (g : NodeTree) :
    Nat → Option Nat → List Nat → Option Node × List Nat
  | 0, os, visited => upstream_step g none os visited
  | fuel + 1, os, visited =>
    upstream_step g
      (some (fun sid vv => find_upstream_image_from_socket g fuel (some sid) vv))
      os visited

/-!
## Spec-side reference walk

Modelled from the spec, §4.1 "Upstream image trace": "if `start_socket` is
unlinked, result is not found.  Otherwise, for each link arriving at
`start_socket`, if the source node is an image-texture node, return it
immediately.  Otherwise, if depth budget remains, recurse into the first
*linked* input socket of that source node (first in declaration order),
decrementing depth.  Maintain a visited-socket set across the whole call
tree …; a socket already visited is never traversed twice."  The walk is
phrased here over the pre-filtered list of *linked* input sockets, with
the same threading of the visited set. -/
def linkedInputSids (g : NodeTree) (n : Option Node) : List Nat :=
  ((inputsOf n).filter (fun i => isLinkedSid g i.sid)).map (fun i => i.sid)

/-- Spec walk: recurse into each linked input socket in declaration order,
returning the first hit of the depth-first, first-input-preferring walk. -/
def spec_linked_inputs (g : NodeTree)
    (recur : Nat → List Nat → Option Node × List Nat) :
    List Nat → List Nat → Option Node × List Nat
  | [], visited => (none, visited)
  | sid :: rest, visited =>
    let r := recur sid visited
    match r.1 with
    | some found => (some found, r.2)
    | none => spec_linked_inputs g recur rest r.2

/-- Spec walk: the per-link step. -/
def spec_links (g : NodeTree)
    (recur? : Option (Nat → List Nat → Option Node × List Nat)) :
    List Link → List Nat → Option Node × List Nat
  | [], visited => (none, visited)
  | l :: rest, visited =>
    if is_image_node (nodeOf g l.fromNode) then (nodeOf g l.fromNode, visited)
    else
      match recur? with
      | none => spec_links g none rest visited
      | some recur =>
        let r := spec_linked_inputs g recur (linkedInputSids g (nodeOf g l.fromNode)) visited
        match r.1 with
        | some found => (some found, r.2)
        | none => spec_links g (some recur) rest r.2

/-- Spec walk: entry — a socket already visited is never traversed twice;
an unlinked start socket is "not found". -/
def spec_step (g : NodeTree)
    (recur? : Option (Nat → List Nat → Option Node × List Nat)) :
    Option Nat → List Nat → Option Node × List Nat
  | none, visited => (none, visited)
  | some s, visited =>
    if memB visited s then (none, visited)
    else
      let visited2 := s :: visited
      if ¬ (isLinkedSid g s = true) then (none, visited2)
      else spec_links g recur? (socketLinks g s) visited2

/-- The spec's `find_upstream_image(start_socket, max_depth)` with the
visited set threaded through the whole call tree. -/
def find_upstream_image_spec (g : NodeTree) :
    Nat → Option Nat → List Nat → Option Node × List Nat
  | 0, os, visited => spec_step g none os visited
  | fuel + 1, os, visited =>
    spec_step g
      (some (fun sid vv => find_upstream_image_spec g fuel (some sid) vv))
      os visited

/-!
## C2: visited-set safety of the upstream trace

The trace's termination on arbitrary (also cyclic) wiring is established
by the definition itself: `find_upstream_image_from_socket` is a total
function, structurally recursive on the depth budget.  The theorems below
add the visited-set facts: a socket already in the visited set is never
traversed (the call returns at once, leaving the set untouched), the set
stays duplicate-free, and its size never exceeds the number of input
sockets in the graph.
-/

/-- The ids of all input sockets of the graph's nodes, in node order. -/
def allInputSids : List Node → List Nat
  | [] => []
  | n :: rest => n.inputs.map (fun i => i.sid) ++ allInputSids rest

/-- The number of distinct input-socket ids in the graph (a lower bound on
the spec's "number of sockets in the graph", which also counts outputs). -/
def socketCount (g : NodeTree) : Nat := (allInputSids g.nodes).dedup.length

/-- Invariant relating the visited list before and after a traversal step:
duplicate-freeness is preserved, the list only grows, and every new entry
is an input-socket id of the graph. -/
def VisOK (g : NodeTree) (v w : List Nat) : Prop :=
  (v.Nodup → w.Nodup) ∧ (∀ x, x ∈ v → x ∈ w) ∧
    (∀ x, x ∈ w → x ∈ v ∨ x ∈ allInputSids g.nodes)

/-- A recursion callback is well-behaved when, started on any graph input
socket, it transforms the visited list along `VisOK`. -/
def GoodRec (g : NodeTree) (recur : Nat → List Nat → Option Node × List Nat) : Prop :=
  ∀ sid v, sid ∈ allInputSids g.nodes → VisOK g v (recur sid v).2

/-!
## Role inference

Transcriptions of `_find_principled_node`, `guess_basecolor_image_node`
(eevee, lines 50-76) / `_guess_basecolor_image_node` (cycles, lines
82-121), `guess_alpha_need` (eevee, lines 78-111) / `_guess_alpha_source`
(cycles, lines 123-164), and `guess_emission_info` (eevee, lines
113-177).  Alpha results keep the source's string tags
(`"NONE"`, `"FROM_BASE"`, `"SEPARATE_IMAGE"`).
-/

/-- Blender's `inputs.get(name)`: the first input socket with that name. -/
def findInput (n : Node) (nm : String) : Option InputSocket :=
  n.inputs.find? (fun i => i.name == nm)

/-- Source `_find_principled_node(tree)` (identical in both files). -/
def find_principled_node (tree : NodeTree) : Option Node :=
  tree.nodes.find? (fun n => n.ntype == "BSDF_PRINCIPLED")

/-- The image-node name keys of the eevee base-color heuristic. -/
def eeveeBaseKeys : List String :=
  ["main", "base", "albedo", "color", "maintex", "diffuse"]

/-- The image-node name keys of the cycles base-color heuristic (note the
extra `"maintx"`). -/
def cyclesBaseKeys : List String :=
  ["main", "base", "albedo", "color", "maintx", "maintex", "diffuse"]

/-- Step 1 of both base-color heuristics: trace the principled node's
`Base Color` input upstream (nothing when no principled node exists). -/
def basecolor_from_principled (tree : NodeTree) : Option Node :=
  match find_principled_node tree with
  | some principled =>
    (find_upstream_image_from_socket tree 12
      ((findInput principled "Base Color").map (fun i => i.sid)) []).1
  | none => none

/-- Source `guess_basecolor_image_node(mat)` (eevee file): principled Base Color
trace, then name-keyword image nodes, then the first image node. -/
def guess_basecolor_image_node (mat : Material) : Option Node :=
  if ¬ (mat.use_nodes = true) then none
  else
    match mat.node_tree with
    | none => none
    | some tree =>
      match basecolor_from_principled tree with
      | some img => some img
      | none =>
        match tree.nodes.find?
            (fun n => isImageNodeB n && nameHasKey (lowerStr n.name) eeveeBaseKeys) with
        | some n => some n
        | none => tree.nodes.find? (fun n => isImageNodeB n)

/-- Step 2 of the cycles base-color heuristic: for each shader-like node
in order, trace its `Color` then `Base Color` input. -/
def cycles_shader_color_scan (tree : NodeTree) : List Node → Option Node
  | [] => none
  | n :: rest =>
    if n.ntype == "BSDF_DIFFUSE" || n.ntype == "BSDF_PRINCIPLED" ||
        n.ntype == "EMISSION" || n.ntype == "BSDF_GLOSSY" || n.ntype == "BSDF_TOON" then
      match (find_upstream_image_from_socket tree 12
          ((findInput n "Color").map (fun i => i.sid)) []).1 with
      | some img => some img
      | none =>
        match (find_upstream_image_from_socket tree 12
            ((findInput n "Base Color").map (fun i => i.sid)) []).1 with
        | some img => some img
        | none => cycles_shader_color_scan tree rest
    else cycles_shader_color_scan tree rest

/-- Source `_guess_basecolor_image_node(mat)` (cycles file): principled Base
Color trace, then any shader node's color input, then name keywords, then
the first image node. -/
def guess_basecolor_image_node_cycles (mat : Material) : Option Node :=
  if ¬ (mat.use_nodes = true) then none
  else
    match mat.node_tree with
    | none => none
    | some tree =>
      match basecolor_from_principled tree with
      | some img => some img
      | none =>
        match cycles_shader_color_scan tree tree.nodes with
        | some img => some img
        | none =>
          match tree.nodes.find?
              (fun n => isImageNodeB n && nameHasKey (lowerStr n.name) cyclesBaseKeys) with
          | some n => some n
          | none => tree.nodes.find? (fun n => isImageNodeB n)

/-- The dedicated-alpha-texture name test (`"alpha" in nm or "opacity" in
nm or "transparent" in nm`, identical in both files). -/
def alphaNamed (n : Node) : Bool :=
  strContains (lowerStr n.name) "alpha" || strContains (lowerStr n.name) "opacity" ||
    strContains (lowerStr n.name) "transparent"

/-- Source `guess_alpha_need(mat, base_img_node)` (eevee file): non-opaque blend
hint with a base image → `FROM_BASE`; a dedicated alpha-named image node →
`SEPARATE_IMAGE`; base image with 4 channels or a STRAIGHT/PREMUL
alpha-mode flag → `FROM_BASE`; otherwise `NONE`. -/
def guess_alpha_need (mat : Material) (base_img_node : Option Node) :
    String × Option Node :=
  if ¬ (mat.use_nodes = true) then ("NONE", none)
  else
    match mat.node_tree with
    | none => ("NONE", none)
    | some tree =>
      if ¬ (mat.blend_method == "OPAQUE") && hasImage base_img_node then
        ("FROM_BASE", none)
      else
        match tree.nodes.find? (fun n => isImageNodeB n && alphaNamed n) with
        | some n => ("SEPARATE_IMAGE", some n)
        | none =>
          match base_img_node with
          | some bn =>
            match bn.image with
            | some img =>
              if img.channels == 4 then ("FROM_BASE", none)
              else if img.alpha_mode == "STRAIGHT" || img.alpha_mode == "PREMUL" then
                ("FROM_BASE", none)
              else ("NONE", none)
            | none => ("NONE", none)
          | none => ("NONE", none)

/-- Source `_guess_alpha_source(mat, base_img_node)` (cycles file).  Note the
last step: after the `depth >= 32` check the source falls through to an
unconditional `return ('FROM_BASE', None)` whenever a base image exists
("Even if depth check fails, base alpha may still be meaningful"), so
both branches of the depth test yield `FROM_BASE`. -/
def guess_alpha_source_cycles (mat : Material) (base_img_node : Option Node) :
    String × Option Node :=
  if ¬ (mat.use_nodes = true) then ("NONE", none)
  else
    match mat.node_tree with
    | none => ("NONE", none)
    | some tree =>
      if ¬ (mat.blend_method == "OPAQUE") && hasImage base_img_node then
        ("FROM_BASE", none)
      else
        match tree.nodes.find? (fun n => isImageNodeB n && alphaNamed n) with
        | some n => ("SEPARATE_IMAGE", some n)
        | none =>
          match base_img_node with
          | some bn =>
            match bn.image with
            | some img =>
              if 32 ≤ img.depth then ("FROM_BASE", none)
              else ("FROM_BASE", none)
            | none => ("NONE", none)
          | none => ("NONE", none)

/-!  `guess_emission_info` (eevee file, lines 113-177). -/

/-- Source `principled.inputs.get("Emission Color") or
principled.inputs.get("Emission")`. -/
def emission_color_in (p : Node) : Option InputSocket :=
  match findInput p "Emission Color" with
  | some i => some i
  | none => findInput p "Emission"

/-- The emission color read from the principled node (default `(0,0,0,1)`
when neither socket name exists). -/
def emission_read_color (p : Node) : List Rat :=
  match emission_color_in p with
  | some i => i.default_value
  | none => [0, 0, 0, 1]

/-- The emission strength read from the principled node (0 when the
`Emission Strength` socket is absent). -/
def emission_read_strength (p : Node) : Rat :=
  match findInput p "Emission Strength" with
  | some i => scalarOf i.default_value
  | none => 0

/-- The principled-shader branch of `guess_emission_info`: read color,
strength and upstream image; if strength is 0 but the color's RGB part is
non-black, treat strength as 1. -/
def principled_emission (tree : NodeTree) (p : Node) :
    List Rat × Rat × Option Node :=
  let em_color := emission_read_color p
  let em_img : Option Node :=
    match emission_color_in p with
    | some i => (find_upstream_image_from_socket tree 12 (some i.sid) []).1
    | none => none
  let s0 := emission_read_strength p
  let s1 := if s0 == 0 && ¬ (em_color.take 3 == [0, 0, 0]) then 1 else s0
  (em_color, s1, em_img)

/-- The MToon-group-input keyword set. -/
def emissionKeys : List String :=
  ["emission", "_emissioncolor", "emissionfactor", "emissive"]

/-- The inner loop of the group scan: first RGBA/VECTOR input whose
normalized name contains an emission keyword and whose RGB part is
non-black. -/
def emission_group_inputs (tree : NodeTree) :
    List InputSocket → Option (List Rat × Rat × Option Node)
  | [] => none
  | inp :: rest =>
    if nameHasKey (stripSpaces (lowerStr inp.name)) emissionKeys then
      if inp.stype == "RGBA" || inp.stype == "VECTOR" then
        let col := inp.default_value
        let col := if col.length == 3 then col ++ [1] else col
        if ¬ (col.take 3 == [0, 0, 0]) then
          some (col, 1, (find_upstream_image_from_socket tree 12 (some inp.sid) []).1)
        else emission_group_inputs tree rest
      else emission_group_inputs tree rest
    else emission_group_inputs tree rest

/-- The MToon-style group scan (`n.type == 'GROUP' and n.node_tree`). -/
def emission_group_scan (tree : NodeTree) :
    List Node → Option (List Rat × Rat × Option Node)
  | [] => none
  | n :: rest =>
    if n.ntype == "GROUP" && n.has_node_tree then
      match emission_group_inputs tree n.inputs with
      | some r => some r
      | none => emission_group_scan tree rest
    else emission_group_scan tree rest

/-- The standalone-`EMISSION`-shader scan. -/
def emission_node_scan (tree : NodeTree) :
    List Node → Option (List Rat × Rat × Option Node)
  | [] => none
  | n :: rest =>
    if n.ntype == "EMISSION" then
      match findInput n "Color" with
      | some col_in =>
        let col := col_in.default_value
        let strength :=
          match findInput n "Strength" with
          | some st => scalarOf st.default_value
          | none => 1
        let img := (find_upstream_image_from_socket tree 12 (some col_in.sid) []).1
        if 0 < strength ∧ (¬ (col.take 3 == [0, 0, 0]) ∨ img.isSome = true) then
          some (col, strength, img)
        else emission_node_scan tree rest
      | none => emission_node_scan tree rest
    else emission_node_scan tree rest

/-- The lower-priority rules of `guess_emission_info` (group scan, then
emission-shader scan, then the black/0/none default). -/
def emission_fallback (tree : NodeTree) : List Rat × Rat × Option Node :=
  match emission_group_scan tree tree.nodes with
  | some r => r
  | none =>
    match emission_node_scan tree tree.nodes with
    | some r => r
    | none => ([0, 0, 0, 1], 0, none)

/-- Source `guess_emission_info(mat)` (eevee file): the principled branch is
accepted when its (possibly adjusted) strength is positive or an upstream
image was found; otherwise the lower-priority rules run. -/
def guess_emission_info (mat : Material) : List Rat × Rat × Option Node :=
  if ¬ (mat.use_nodes = true) then ([0, 0, 0, 1], 0, none)
  else
    match mat.node_tree with
    | none => ([0, 0, 0, 1], 0, none)
    | some tree =>
      match find_principled_node tree with
      | some p =>
        let r := principled_emission tree p
        if 0 < r.2.1 ∨ r.2.2.isSome = true then r
        else emission_fallback tree
      | none => emission_fallback tree

/-!
## Graph synthesis

The builders clear the target graph and write a fixed wiring; the claims
only touch the values below, which each builder record collects exactly as
the source computes them.  `build_eevee_toon_material` is from
`vrm_eevee_simple_matgerials.py` lines 203-429,
`build_simple_cycles_material` from `vrm_cycles_simple_materials.py`
lines 185-292.
-/

/-- Observable outcome of `build_eevee_toon_material`: the two ramp stops
(position and color), the emission values written to the created
principled node, which alpha source got connected, the material flags the
builder forces at the end, and the returned `use_alpha`. -/
structure EeveeToonOut where
  ramp_p0 : Rat
  ramp_c0 : Rat × Rat × Rat × Rat
  ramp_p1 : Rat
  ramp_c1 : Rat × Rat × Rat × Rat
  emission_strength_value : Option Rat
  emission_color_value : Option (List Rat)
  emission_uses_image : Bool
  connected_alpha : Bool
  principled_alpha_default : Rat
  blend_method : String
  shadow_method : String
  alpha_threshold : Rat
  use_backface_culling : Bool
  use_alpha : Bool
deriving DecidableEq

/-- Source `build_eevee_toon_material(...)`.  The `has_emission_strength_input` flag
models the source's `principled_out.inputs.get("Emission Strength")`
guard (the socket exists in every Blender version this add-on targets,
but the code tolerates its absence); when it is `false` no strength is
written (`emission_strength_value = none`).  The `alpha_blend_method`
parameter is accepted and — exactly as in the source — never read. -/
def build_eevee_toon_material
    (base_img_node : Option Node)
    (alpha_mode : String × Option Node)
    (alpha_blend_method : String)
    (alpha_clip_threshold ramp_center ramp_softness shadow_value : Rat)
    (emission_color : List Rat)
    (emission_strength : Rat)
    (emission_img_node : Option Node)
    (has_emission_strength_input : Bool) : EeveeToonOut :=
  let hasTex := hasImage base_img_node
  let c := max 0 (min 1 ramp_center)
  let s := max 0 (min (2/10 : Rat) ramp_softness)
  let p0 := max 0 (min 1 (c - s))
  let p1 := max 0 (min 1 (c + s))
  let has_vrm_emission : Bool :=
    decide (0 < emission_strength) || emission_img_node.isSome
  let emission_uses_image := has_vrm_emission && hasImage emission_img_node
  let emission_strength_value : Option Rat :=
    if has_emission_strength_input then
      some (if has_vrm_emission then max emission_strength 1 else 0)
    else none
  let emission_color_value : Option (List Rat) :=
    if has_vrm_emission && ¬ (hasImage emission_img_node = true) then
      some (if 4 ≤ emission_color.length then emission_color.take 4
            else emission_color ++ [1])
    else none
  let connectedFromBase := alpha_mode.1 == "FROM_BASE" && hasTex
  let connected_alpha :=
    if connectedFromBase then true
    else alpha_mode.1 == "SEPARATE_IMAGE" && hasImage alpha_mode.2
  { ramp_p0 := p0
    ramp_c0 := (shadow_value, shadow_value, shadow_value, 1)
    ramp_p1 := p1
    ramp_c1 := (1, 1, 1, 1)
    emission_strength_value := emission_strength_value
    emission_color_value := emission_color_value
    emission_uses_image := emission_uses_image
    connected_alpha := connected_alpha
    principled_alpha_default := 1
    blend_method := "CLIP"
    shadow_method := "CLIP"
    alpha_threshold := alpha_clip_threshold
    use_backface_culling := false
    use_alpha := true }

/-- Observable outcome of `build_simple_cycles_material`: whether the
transparent/principled mix path was built, which alpha source drives the
mix factor, the opaque fallback on the factor, and the Eevee-side flags
set by `_ensure_cycles_transparency_settings`. -/
structure CyclesOut where
  use_alpha : Bool
  surface_from_mix : Bool
  alpha_fac_from_base_tex : Bool
  alpha_fac_from_sep_tex : Bool
  mix_fac_default : Option Rat
  blend_method : String
  shadow_method : String
deriving DecidableEq

/-- Source `build_simple_cycles_material(new_mat, base_img_node, alpha_mode,
normal_info)`.  The normal-map sub-wiring is claim-irrelevant and not
recorded. -/
def build_simple_cycles_material
    (base_img_node : Option Node)
    (alpha_mode : String × Option Node) : CyclesOut :=
  let hasTex := hasImage base_img_node
  let use_alpha := ¬ (alpha_mode.1 == "NONE")
  let fromBase := alpha_mode.1 == "FROM_BASE" && hasTex
  let fromSep :=
    ¬ (fromBase = true) && alpha_mode.1 == "SEPARATE_IMAGE" && hasImage alpha_mode.2
  { use_alpha := use_alpha
    surface_from_mix := use_alpha
    alpha_fac_from_base_tex := use_alpha && fromBase
    alpha_fac_from_sep_tex := use_alpha && fromSep
    mix_fac_default :=
      if use_alpha && ¬ (fromBase = true) && ¬ (fromSep = true) then some 1 else none
    blend_method := if use_alpha then "BLEND" else "OPAQUE"
    shadow_method := if use_alpha then "HASHED" else "OPAQUE" }

/-!
## Per-slot conversion loop

`convert_object_materials` appears in both files (cycles lines 302-350,
eevee lines 470-529) with the identical control flow — only the
already-converted name marker differs (`"VRM_SIMPLE_"` vs `"VRM_TOON_"`)
and the per-material inference/synthesis block that runs between the
guards.  `convertLoop` transcribes that shared control flow once over
material ids:

* `names` maps a material id to its name (`old.name`);
* a `None` slot is passed over;
* a slot whose material name starts with the marker is skipped when
  `overwrite` is off (before the cache is even consulted);
* a cache hit reassigns the slot to the cached target and skips the rest;
* otherwise the target is a fresh copy (`create_new`), the material itself
  (`overwrite`), or the slot is left alone; inference + synthesis run on
  the source material (recorded in `built`), the cache gains the pair, the
  slot is reassigned and the converted counter grows.

Fresh ids for `old.copy()` are drawn from the `fresh` counter.  The
result records the final slot assignments (in slot order), the cache, the
next fresh id, the converted count (the returned `slots` count is the
input's length), and `built` — the source materials on which the
inference + synthesis block executed, in processing order. -/
structure ConvOut where
  outs : List (Option Nat)
  cache : List (Nat × Nat)
  fresh : Nat
  converted : Nat
  built : List Nat
deriving DecidableEq

def convertLoop (pfx : String) (names : Nat → String)
    (create_new overwrite : Bool) :
    List (Option Nat) → List (Nat × Nat) → Nat → ConvOut
  | [], cache, fresh => ⟨[], cache, fresh, 0, []⟩
  | none :: rest, cache, fresh =>
    let r := convertLoop pfx names create_new overwrite rest cache fresh
    ⟨none :: r.outs, r.cache, r.fresh, r.converted, r.built⟩
  | some m :: rest, cache, fresh =>
    if strStartsWith (names m) pfx && !overwrite then
      let r := convertLoop pfx names create_new overwrite rest cache fresh
      ⟨some m :: r.outs, r.cache, r.fresh, r.converted, r.built⟩
    else
      match lookupA cache m with
      | some t =>
        let r := convertLoop pfx names create_new overwrite rest cache fresh
        ⟨some t :: r.outs, r.cache, r.fresh, r.converted, r.built⟩
      | none =>
        if create_new then
          let r := convertLoop pfx names create_new overwrite rest
            ((m, fresh) :: cache) (fresh + 1)
          ⟨some fresh :: r.outs, r.cache, r.fresh, r.converted + 1, m :: r.built⟩
        else
          if overwrite then
            let r := convertLoop pfx names create_new overwrite rest
              ((m, m) :: cache) fresh
            ⟨some m :: r.outs, r.cache, r.fresh, r.converted + 1, m :: r.built⟩
          else
            let r := convertLoop pfx names create_new overwrite rest cache fresh
            ⟨some m :: r.outs, r.cache, r.fresh, r.converted, r.built⟩

/-- Source `convert_object_materials` of `vrm_cycles_simple_materials.py`
(marker `"VRM_SIMPLE_"`). -/
def convert_object_materials_cycles (names : Nat → String)
    (create_new overwrite : Bool) (slots : List (Option Nat))
    (cache : List (Nat × Nat)) (fresh : Nat) : ConvOut :=
  convertLoop "VRM_SIMPLE_" names create_new overwrite slots cache fresh

/-- Source `convert_object_materials` of `vrm_eevee_simple_matgerials.py`
(marker `"VRM_TOON_"`). -/
def convert_object_materials_eevee (names : Nat → String)
    (create_new overwrite : Bool) (slots : List (Option Nat))
    (cache : List (Nat × Nat)) (fresh : Nat) : ConvOut :=
  convertLoop "VRM_TOON_" names create_new overwrite slots cache fresh

/-!  Concrete graphs used as counterexamples and witnesses. -/

/-- A principled node with an unlinked `Base Color` input and no image
nodes anywhere. -/
def principledBaseSock : InputSocket := ⟨0, "Base Color", "RGBA", [1, 1, 1, 1]⟩

def principledOnlyNode : Node :=
  ⟨0, "BSDF_PRINCIPLED", "Principled BSDF", none, [principledBaseSock], false⟩

def treeNoImages : NodeTree := ⟨[principledOnlyNode], []⟩

/-- A material with a non-opaque blend hint and no discoverable base
image. -/
def matBlendNoImage : Material := ⟨true, some treeNoImages, "BLEND"⟩

/-- An image plausibly carrying alpha only through its bit depth:
3 channels, no alpha-mode flag, depth 32. -/
def imgDepth32 : Image := ⟨3, "NONE", 32⟩

def texNodeDepth32 : Node := ⟨0, "TEX_IMAGE", "tex", some imgDepth32, [], false⟩

def treeDepth32 : NodeTree := ⟨[texNodeDepth32], []⟩

/-- An opaque-hinted material whose only image node carries `imgDepth32`. -/
def matDepth32 : Material := ⟨true, some treeDepth32, "OPAQUE"⟩

/-!
## Concrete witness data
-/

/-- Two non-image nodes wired into a cycle: the input socket of each is
fed by the other node. -/
def cycSockA : InputSocket := ⟨0, "In", "VALUE", [0]⟩

def cycSockB : InputSocket := ⟨1, "In", "VALUE", [0]⟩

def cycNodeA : Node := ⟨0, "MIX", "A", none, [cycSockA], false⟩

def cycNodeB : Node := ⟨1, "MIX", "B", none, [cycSockB], false⟩

def cyclicTree : NodeTree := ⟨[cycNodeA, cycNodeB], [⟨1, 0⟩, ⟨0, 1⟩]⟩

/-- A base image that plausibly carries alpha by channel count and flag. -/
def imgRGBA : Image := ⟨4, "STRAIGHT", 32⟩

def texNodeRGBA : Node := ⟨0, "TEX_IMAGE", "maintex", some imgRGBA, [], false⟩

def treeRGBA : NodeTree := ⟨[texNodeRGBA], []⟩

def matRGBA : Material := ⟨true, some treeRGBA, "OPAQUE"⟩

/-- A principled node with a non-black emission color and zero strength. -/
def emColorSock : InputSocket := ⟨1, "Emission Color", "RGBA", [1, 0, 0, 1]⟩

def emStrengthSock : InputSocket := ⟨2, "Emission Strength", "VALUE", [0]⟩

def principledEmissive : Node :=
  ⟨0, "BSDF_PRINCIPLED", "Principled BSDF", none, [emColorSock, emStrengthSock], false⟩

def treeEmissive : NodeTree := ⟨[principledEmissive], []⟩

def matEmissive : Material := ⟨true, some treeEmissive, "OPAQUE"⟩

/-- Name tables for the conversion-loop witnesses. -/
def namesMarked : Nat → String :=
  fun n => if n = 0 then "VRM_TOON_Skin" else "VRM_SIMPLE_Skin"

def namesPlain : Nat → String := fun _ => "MToonSkin"

/-!  Equivalence of the transcribed walk with the spec-side walk. -/

theorem upstream_inputs_loop_eq_spec (g : NodeTree)
    (recur : Nat → List Nat → Option Node × List Nat) :
    ∀ (inps : List InputSocket) (v : List Nat),
      upstream_inputs_loop g recur inps v =
        spec_linked_inputs g recur
          ((inps.filter (fun i => isLinkedSid g i.sid)).map (fun i => i.sid)) v := by
  intro inps
  induction inps with
  | nil => intro v; rfl
  | cons inp rest ih =>
    intro v
    by_cases h : isLinkedSid g inp.sid
    · simp only [upstream_inputs_loop, h, if_true, List.filter_cons, List.map_cons,
        spec_linked_inputs]
      cases hr : (recur inp.sid v).1 <;> simp [hr, ih]
    · have hb : isLinkedSid g inp.sid = false := by simpa using h
      simp [upstream_inputs_loop, hb, List.filter_cons, ih]

theorem upstream_links_loop_eq_spec (g : NodeTree)
    (recur? : Option (Nat → List Nat → Option Node × List Nat)) :
    ∀ (links : List Link) (v : List Nat),
      upstream_links_loop g recur? links v = spec_links g recur? links v := by
  intro links
  induction links with
  | nil => intro v; cases recur? <;> rfl
  | cons l rest ih =>
    intro v
    by_cases h : is_image_node (nodeOf g l.fromNode)
    · simp [upstream_links_loop, spec_links, h]
    · have hb : is_image_node (nodeOf g l.fromNode) = false := by simpa using h
      cases recur? with
      | none => simp [upstream_links_loop, spec_links, hb, ih]
      | some recur =>
        simp only [upstream_links_loop, spec_links, hb, Bool.false_eq_true, if_false,
          upstream_inputs_loop_eq_spec, linkedInputSids]
        cases hr : (spec_linked_inputs g recur
            ((List.filter (fun i => isLinkedSid g i.sid)
              (inputsOf (nodeOf g l.fromNode))).map (fun i => i.sid)) v).1 <;>
          simp [hr, ih]

theorem upstream_step_eq_spec (g : NodeTree)
    (recur? : Option (Nat → List Nat → Option Node × List Nat)) :
    ∀ (os : Option Nat) (v : List Nat),
      upstream_step g recur? os v = spec_step g recur? os v := by
  intro os v
  cases os with
  | none => rfl
  | some s =>
    by_cases hm : memB v s
    · simp [upstream_step, spec_step, hm]
    · have hb : memB v s = false := by simpa using hm
      by_cases hl : isLinkedSid g s
      · simp [upstream_step, spec_step, hb, hl, upstream_links_loop_eq_spec]
      · have hlb : isLinkedSid g s = false := by simpa using hl
        simp [upstream_step, spec_step, hb, hlb]

/-- Claim C1: the upstream image trace of the source (transcribed
identically from both add-on files) coincides, on every graph, depth
budget, start socket and incoming visited set, with the walk the spec
describes: unlinked start → not found; each arriving link's source node
returned immediately if it is an image node; otherwise, while depth
budget remains, recursion into the linked input sockets in declaration
order (first-input-preferring, depth-first), with the visited set
threaded across the whole call tree. -/
theorem find_upstream_image_matches_spec (g : NodeTree) :
    ∀ (fuel : Nat) (os : Option Nat) (v : List Nat),
      find_upstream_image_from_socket g fuel os v =
        find_upstream_image_spec g fuel os v := by
  intro fuel
  induction fuel with
  | zero =>
    intro os v
    exact upstream_step_eq_spec g none os v
  | succ d ih =>
    intro os v
    have hrec : (fun sid vv => find_upstream_image_from_socket g d (some sid) vv) =
        (fun sid vv => find_upstream_image_spec g d (some sid) vv) := by
      funext sid vv; exact ih (some sid) vv
    calc find_upstream_image_from_socket g (d + 1) os v
        = upstream_step g
            (some (fun sid vv => find_upstream_image_from_socket g d (some sid) vv)) os v := rfl
      _ = upstream_step g
            (some (fun sid vv => find_upstream_image_spec g d (some sid) vv)) os v := by
            rw [hrec]
      _ = spec_step g
            (some (fun sid vv => find_upstream_image_spec g d (some sid) vv)) os v :=
            upstream_step_eq_spec g _ os v
      _ = find_upstream_image_spec g (d + 1) os v := rfl

theorem memB_iff (v : List Nat) (s : Nat) : memB v s = true ↔ s ∈ v := by
  induction v with
  | nil => simp [memB]
  | cons x xs ih =>
    simp only [memB, Bool.or_eq_true, beq_iff_eq, ih, List.mem_cons]
    constructor
    · rintro (h | h)
      · exact Or.inl h.symm
      · exact Or.inr h
    · rintro (h | h)
      · exact Or.inl h.symm
      · exact Or.inr h

theorem sid_mem_allInputSids {nodes : List Node} {n : Node} {i : InputSocket}
    (hn : n ∈ nodes) (hi : i ∈ n.inputs) : i.sid ∈ allInputSids nodes := by
  induction nodes with
  | nil => cases hn
  | cons m rest ih =>
    rcases List.mem_cons.mp hn with h | h
    · subst h
      exact List.mem_append.mpr (Or.inl (List.mem_map.mpr ⟨i, hi, rfl⟩))
    · exact List.mem_append.mpr (Or.inr (ih h))

theorem VisOK.rfl (g : NodeTree) (v : List Nat) : VisOK g v v :=
  ⟨fun h => h, fun _ h => h, fun _ h => Or.inl h⟩

theorem VisOK.trans {g : NodeTree} {u v w : List Nat}
    (h1 : VisOK g u v) (h2 : VisOK g v w) : VisOK g u w := by
  refine ⟨fun h => h2.1 (h1.1 h), fun x hx => h2.2.1 x (h1.2.1 x hx), fun x hx => ?_⟩
  rcases h2.2.2 x hx with h | h
  · exact h1.2.2 x h
  · exact Or.inr h

theorem upstream_inputs_loop_visok (g : NodeTree)
    {recur : Nat → List Nat → Option Node × List Nat} (hrec : GoodRec g recur) :
    ∀ (inps : List InputSocket) (v : List Nat),
      (∀ i ∈ inps, i.sid ∈ allInputSids g.nodes) →
      VisOK g v (upstream_inputs_loop g recur inps v).2 := by
  intro inps
  induction inps with
  | nil => intro v _; exact VisOK.rfl g v
  | cons inp rest ih =>
    intro v hmem
    have hin : inp.sid ∈ allInputSids g.nodes := hmem inp (List.mem_cons_self _ _)
    have hrest : ∀ i ∈ rest, i.sid ∈ allInputSids g.nodes :=
      fun i hi => hmem i (List.mem_cons_of_mem _ hi)
    by_cases h : isLinkedSid g inp.sid
    · have h1 : VisOK g v (recur inp.sid v).2 := hrec inp.sid v hin
      simp only [upstream_inputs_loop, h, if_true]
      cases hr : (recur inp.sid v).1 with
      | some found => simpa [hr] using h1
      | none => simpa [hr] using h1.trans (ih _ hrest)
    · have hb : isLinkedSid g inp.sid = false := by simpa using h
      simpa [upstream_inputs_loop, hb] using ih v hrest

theorem upstream_links_loop_visok (g : NodeTree)
    {recur? : Option (Nat → List Nat → Option Node × List Nat)}
    (hrec : ∀ recur, recur? = some recur → GoodRec g recur) :
    ∀ (links : List Link) (v : List Nat),
      VisOK g v (upstream_links_loop g recur? links v).2 := by
  intro links
  induction links with
  | nil => intro v; cases recur? <;> exact VisOK.rfl g v
  | cons l rest ih =>
    intro v
    by_cases h : is_image_node (nodeOf g l.fromNode)
    · simpa [upstream_links_loop, h] using VisOK.rfl g v
    · have hb : is_image_node (nodeOf g l.fromNode) = false := by simpa using h
      cases hro : recur? with
      | none =>
        subst hro
        simpa [upstream_links_loop, hb] using ih v
      | some recur =>
        subst hro
        have hmem : ∀ i ∈ inputsOf (nodeOf g l.fromNode), i.sid ∈ allInputSids g.nodes := by
          intro i hi
          cases hn : nodeOf g l.fromNode with
          | none => rw [hn] at hi; cases hi
          | some n =>
            rw [hn] at hi
            exact sid_mem_allInputSids (List.mem_of_find?_eq_some hn) hi
        have h1 : VisOK g v (upstream_inputs_loop g recur (inputsOf (nodeOf g l.fromNode)) v).2 :=
          upstream_inputs_loop_visok g (hrec recur rfl) _ v hmem
        simp only [upstream_links_loop, hb, Bool.false_eq_true, if_false]
        cases hr : (upstream_inputs_loop g recur (inputsOf (nodeOf g l.fromNode)) v).1 with
        | some found => simpa [hr] using h1
        | none => simpa [hr] using h1.trans (ih _)

theorem upstream_step_visok (g : NodeTree)
    {recur? : Option (Nat → List Nat → Option Node × List Nat)}
    (hrec : ∀ recur, recur? = some recur → GoodRec g recur)
    (s : Nat) (v : List Nat) (hs : s ∈ allInputSids g.nodes) :
    VisOK g v (upstream_step g recur? (some s) v).2 := by
  by_cases hm : memB v s
  · simpa [upstream_step, hm] using VisOK.rfl g v
  · have hmb : memB v s = false := by simpa using hm
    have hnot : s ∉ v := fun hmem => hm ((memB_iff v s).mpr hmem)
    have hcons : VisOK g v (s :: v) := by
      refine ⟨fun h => List.nodup_cons.mpr ⟨hnot, h⟩,
        fun x hx => List.mem_cons_of_mem _ hx, fun x hx => ?_⟩
      rcases List.mem_cons.mp hx with h | h
      · subst h; exact Or.inr hs
      · exact Or.inl h
    by_cases hl : isLinkedSid g s
    · have h2 : VisOK g (s :: v) (upstream_links_loop g recur? (socketLinks g s) (s :: v)).2 :=
        upstream_links_loop_visok g hrec _ _
      simpa [upstream_step, hmb, hl] using hcons.trans h2
    · have hlb : isLinkedSid g s = false := by simpa using hl
      simpa [upstream_step, hmb, hlb] using hcons

theorem find_upstream_visok (g : NodeTree) :
    ∀ (fuel : Nat) (s : Nat) (v : List Nat), s ∈ allInputSids g.nodes →
      VisOK g v (find_upstream_image_from_socket g fuel (some s) v).2 := by
  intro fuel
  induction fuel with
  | zero =>
    intro s v hs
    exact upstream_step_visok g (fun recur h => by cases h) s v hs
  | succ d ih =>
    intro s v hs
    refine upstream_step_visok g (fun recur h => ?_) s v hs
    have : recur = fun sid vv => find_upstream_image_from_socket g d (some sid) vv := by
      cases h; rfl
    subst this
    intro sid vv hsid
    exact ih sid vv hsid

/-- Claim C2: on every finite graph — cyclic or reconvergent wiring
included — the upstream trace terminates (it is a total function,
structurally recursive on the depth budget), a socket already in the
visited set is never traversed again (the call returns immediately and
leaves the set untouched), and starting from a duplicate-free visited set
of graph sockets the final visited set stays duplicate-free, only grows,
and never exceeds the number of input sockets of the graph. -/
theorem upstream_trace_visited_bounded (g : NodeTree) (fuel : Nat) (s : Nat)
    (v : List Nat) (hv : v.Nodup) (hvs : ∀ x ∈ v, x ∈ allInputSids g.nodes)
    (hs : s ∈ allInputSids g.nodes) :
    ((find_upstream_image_from_socket g fuel (some s) v).2).Nodup ∧
    (∀ x ∈ v, x ∈ (find_upstream_image_from_socket g fuel (some s) v).2) ∧
    ((find_upstream_image_from_socket g fuel (some s) v).2).length ≤ socketCount g ∧
    (∀ (s2 : Nat) (v2 : List Nat), memB v2 s2 = true →
      find_upstream_image_from_socket g fuel (some s2) v2 = (none, v2)) := by
  have hok := find_upstream_visok g fuel s v hs
  have hnodup : ((find_upstream_image_from_socket g fuel (some s) v).2).Nodup := hok.1 hv
  have hsub : ∀ x ∈ (find_upstream_image_from_socket g fuel (some s) v).2,
      x ∈ allInputSids g.nodes := by
    intro x hx
    rcases hok.2.2 x hx with h | h
    · exact hvs x h
    · exact h
  refine ⟨hnodup, fun x hx => hok.2.1 x hx, ?_, ?_⟩
  · have h1 : ((find_upstream_image_from_socket g fuel (some s) v).2).toFinset.card =
        ((find_upstream_image_from_socket g fuel (some s) v).2).length :=
      List.toFinset_card_of_nodup hnodup
    have h2 : ((find_upstream_image_from_socket g fuel (some s) v).2).toFinset ⊆
        (allInputSids g.nodes).toFinset := by
      intro x hx
      exact List.mem_toFinset.mpr (hsub x (List.mem_toFinset.mp hx))
    calc ((find_upstream_image_from_socket g fuel (some s) v).2).length
        = ((find_upstream_image_from_socket g fuel (some s) v).2).toFinset.card := h1.symm
      _ ≤ (allInputSids g.nodes).toFinset.card := Finset.card_le_card h2
      _ = socketCount g := List.card_toFinset _
  · intro s2 v2 hmem
    cases fuel <;> simp [find_upstream_image_from_socket, upstream_step, hmem]

/-!
## Synthesis theorems
-/

/-- Claim C5: for every ramp center and softness (in particular every
center in `[0,1]` and softness in `[0,0.2]` — the theorem needs no range
hypothesis at all), the two ramp stop positions of the toon synthesizer
satisfy `0 ≤ p0 ≤ p1 ≤ 1` after clamping, the low stop is colored at the
configured shadow brightness and the high stop at full brightness. -/
theorem eevee_ramp_stop_bounds
    (base_img_node : Option Node) (alpha_mode : String × Option Node)
    (abm : String) (thr c s sv : Rat) (ec : List Rat) (es : Rat)
    (ei : Option Node) (hstr : Bool) :
    0 ≤ (build_eevee_toon_material base_img_node alpha_mode abm thr c s sv
          ec es ei hstr).ramp_p0 ∧
    (build_eevee_toon_material base_img_node alpha_mode abm thr c s sv
          ec es ei hstr).ramp_p0 ≤
      (build_eevee_toon_material base_img_node alpha_mode abm thr c s sv
          ec es ei hstr).ramp_p1 ∧
    (build_eevee_toon_material base_img_node alpha_mode abm thr c s sv
          ec es ei hstr).ramp_p1 ≤ 1 ∧
    (build_eevee_toon_material base_img_node alpha_mode abm thr c s sv
          ec es ei hstr).ramp_c0 = (sv, sv, sv, 1) ∧
    (build_eevee_toon_material base_img_node alpha_mode abm thr c s sv
          ec es ei hstr).ramp_c1 = (1, 1, 1, 1) := by
  have hs0 : (0 : Rat) ≤ max 0 (min (2/10 : Rat) s) := le_max_left _ _
  have hcs : max 0 (min 1 c) - max 0 (min (2/10 : Rat) s) ≤
      max 0 (min 1 c) + max 0 (min (2/10 : Rat) s) := by linarith
  refine ⟨?_, ?_, ?_, rfl, rfl⟩
  · exact le_max_left _ _
  · exact max_le_max le_rfl (min_le_min le_rfl hcs)
  · exact max_le (by norm_num) (min_le_left _ _)

/-- Claim C10: every material produced by the toon synthesizer — whatever
the inferred roles and whatever `alpha_blend_method` is passed — ends
with blend mode CLIP, shadow mode CLIP, alpha threshold equal to the
configured clip threshold, and back-face culling disabled; two calls
differing only in `alpha_blend_method` produce identical results. -/
theorem eevee_toon_forced_clip
    (base_img_node : Option Node) (alpha_mode : String × Option Node)
    (abm : String) (thr c s sv : Rat) (ec : List Rat) (es : Rat)
    (ei : Option Node) (hstr : Bool) :
    (build_eevee_toon_material base_img_node alpha_mode abm thr c s sv
        ec es ei hstr).blend_method = "CLIP" ∧
    (build_eevee_toon_material base_img_node alpha_mode abm thr c s sv
        ec es ei hstr).shadow_method = "CLIP" ∧
    (build_eevee_toon_material base_img_node alpha_mode abm thr c s sv
        ec es ei hstr).alpha_threshold = thr ∧
    (build_eevee_toon_material base_img_node alpha_mode abm thr c s sv
        ec es ei hstr).use_backface_culling = false ∧
    (∀ abm2 : String,
      build_eevee_toon_material base_img_node alpha_mode abm thr c s sv
        ec es ei hstr =
      build_eevee_toon_material base_img_node alpha_mode abm2 thr c s sv
        ec es ei hstr) :=
  ⟨rfl, rfl, rfl, rfl, fun _ => rfl⟩

/-- Claim C7: in the toon synthesizer, when the inferred emission role has
positive strength or carries an emission image, the emission strength
written to the created shader is `max strength 1` — never below 1; with
no emission role it is forced to exactly 0.  (Hypothesis: the created
principled node exposes an `Emission Strength` input, which the source
guards on.) -/
theorem eevee_emission_strength_policy
    (base_img_node : Option Node) (alpha_mode : String × Option Node)
    (abm : String) (thr c s sv : Rat) (ec : List Rat) (es : Rat)
    (ei : Option Node) (hstr : Bool) (h : hstr = true) :
    ((0 < es ∨ ei.isSome = true) →
      (build_eevee_toon_material base_img_node alpha_mode abm thr c s sv
          ec es ei hstr).emission_strength_value = some (max es 1) ∧
      (1 : Rat) ≤ max es 1) ∧
    (¬ (0 < es ∨ ei.isSome = true) →
      (build_eevee_toon_material base_img_node alpha_mode abm thr c s sv
          ec es ei hstr).emission_strength_value = some 0) := by
  subst h
  constructor
  · intro hc
    have hb : (decide (0 < es) || ei.isSome) = true := by
      rcases hc with h1 | h1
      · simp [h1]
      · simp [h1]
    refine ⟨?_, le_max_right _ _⟩
    simp [build_eevee_toon_material, hb]
  · intro hc
    have h1 : ¬ 0 < es := fun hx => hc (Or.inl hx)
    have h2 : ei.isSome = false := by
      cases his : ei.isSome
      · rfl
      · exact absurd (Or.inr his) hc
    have hb : (decide (0 < es) || ei.isSome) = false := by
      simp [decide_eq_false h1, h2]
    simp [build_eevee_toon_material, hb]

/-- Claim C6: in the principled-shader branch of `guess_emission_info`: when the
read strength is 0 and the static color's RGB part is non-black the
strength is treated as 1 (and otherwise kept as read); and the branch's
result preempts the lower-priority rules exactly when its resulting
strength is positive or an upstream emission image was found — otherwise
the group/emission-shader fallback runs. -/
theorem guess_emission_principled_ok (mat : Material) (tree : NodeTree) (p : Node)
    (h1 : mat.use_nodes = true) (h2 : mat.node_tree = some tree)
    (h3 : find_principled_node tree = some p) :
    (emission_read_strength p = 0 → (emission_read_color p).take 3 ≠ [0, 0, 0] →
      (principled_emission tree p).2.1 = 1) ∧
    (emission_read_strength p ≠ 0 ∨ (emission_read_color p).take 3 = [0, 0, 0] →
      (principled_emission tree p).2.1 = emission_read_strength p) ∧
    (0 < (principled_emission tree p).2.1 ∨
        (principled_emission tree p).2.2.isSome = true →
      guess_emission_info mat = principled_emission tree p) ∧
    (¬ (0 < (principled_emission tree p).2.1 ∨
        (principled_emission tree p).2.2.isSome = true) →
      guess_emission_info mat = emission_fallback tree) := by
  refine ⟨?_, ?_, ?_, ?_⟩
  · intro hs hc
    have hb1 : (emission_read_strength p == 0) = true := beq_iff_eq.mpr hs
    have hb2 : ((emission_read_color p).take 3 == [0, 0, 0]) = false :=
      beq_eq_false_iff_ne.mpr hc
    simp [principled_emission, hb1, hb2]
  · intro hd
    rcases hd with hs | hc
    · have hb1 : (emission_read_strength p == 0) = false := beq_eq_false_iff_ne.mpr hs
      simp [principled_emission, hb1]
    · have hb2 : ((emission_read_color p).take 3 == [0, 0, 0]) = true :=
        beq_iff_eq.mpr hc
      simp [principled_emission, hb2]
  · intro hc
    simp only [guess_emission_info, h1, h2, h3, not_true, if_false]
    rw [if_pos hc]
  · intro hc
    simp only [guess_emission_info, h1, h2, h3, not_true, if_false]
    rw [if_neg hc]

/-!
## C3: no discoverable base color + non-opaque hint
-/

/-- If the eevee base-color heuristic finds nothing, the tree has no image
node at all (its final fallback returns the first image node). -/
theorem no_image_nodes_of_basecolor_none (mat : Material) (tree : NodeTree)
    (h1 : mat.use_nodes = true) (h2 : mat.node_tree = some tree)
    (h : guess_basecolor_image_node mat = none) :
    ∀ n ∈ tree.nodes, isImageNodeB n = false := by
  intro n hn
  simp only [guess_basecolor_image_node, h1, h2, not_true, if_false] at h
  cases hp : basecolor_from_principled tree with
  | some img => rw [hp] at h; cases h
  | none =>
    rw [hp] at h
    cases hk : tree.nodes.find?
        (fun n => isImageNodeB n && nameHasKey (lowerStr n.name) eeveeBaseKeys) with
    | some n2 => rw [hk] at h; cases h
    | none =>
      rw [hk] at h
      have := List.find?_eq_none.mp h n hn
      simpa using this

/-- Same fact for the cycles variant. -/
theorem no_image_nodes_of_basecolor_none_cycles (mat : Material) (tree : NodeTree)
    (h1 : mat.use_nodes = true) (h2 : mat.node_tree = some tree)
    (h : guess_basecolor_image_node_cycles mat = none) :
    ∀ n ∈ tree.nodes, isImageNodeB n = false := by
  intro n hn
  simp only [guess_basecolor_image_node_cycles, h1, h2, not_true, if_false] at h
  cases hp : basecolor_from_principled tree with
  | some img => rw [hp] at h; cases h
  | none =>
    rw [hp] at h
    cases hs : cycles_shader_color_scan tree tree.nodes with
    | some img => rw [hs] at h; cases h
    | none =>
      rw [hs] at h
      cases hk : tree.nodes.find?
          (fun n => isImageNodeB n && nameHasKey (lowerStr n.name) cyclesBaseKeys) with
      | some n2 => rw [hk] at h; cases h
      | none =>
        rw [hk] at h
        have := List.find?_eq_none.mp h n hn
        simpa using this

/-- Claim C3, amended: when no base-color image is discoverable the alpha
classification of both variants returns `NONE` (whatever the blend-mode
hint says); with that result the cycles synthesizer makes the material
fully opaque (no transparent/mix path, blend and shadow mode `OPAQUE`),
while the eevee toon synthesizer leaves the shader fully opaque (no alpha
source connected, shader alpha left at 1) but forces blend mode `CLIP`,
not `OPAQUE`. -/
theorem alpha_none_when_no_basecolor (mat : Material) :
    (guess_basecolor_image_node mat = none →
      guess_alpha_need mat (guess_basecolor_image_node mat) = ("NONE", none)) ∧
    (guess_basecolor_image_node_cycles mat = none →
      guess_alpha_source_cycles mat (guess_basecolor_image_node_cycles mat) =
        ("NONE", none)) ∧
    (∀ b : Option Node,
      (build_simple_cycles_material b ("NONE", none)).use_alpha = false ∧
      (build_simple_cycles_material b ("NONE", none)).surface_from_mix = false ∧
      (build_simple_cycles_material b ("NONE", none)).blend_method = "OPAQUE" ∧
      (build_simple_cycles_material b ("NONE", none)).shadow_method = "OPAQUE") ∧
    (∀ (b ei : Option Node) (abm : String) (thr c s sv es : Rat) (ec : List Rat)
        (hstr : Bool),
      (build_eevee_toon_material b ("NONE", none) abm thr c s sv ec es ei
          hstr).connected_alpha = false ∧
      (build_eevee_toon_material b ("NONE", none) abm thr c s sv ec es ei
          hstr).principled_alpha_default = 1 ∧
      (build_eevee_toon_material b ("NONE", none) abm thr c s sv ec es ei
          hstr).blend_method = "CLIP") := by
  refine ⟨?_, ?_, ?_, ?_⟩
  · intro hb
    rw [hb]
    by_cases h1 : mat.use_nodes = true
    · cases h2 : mat.node_tree with
      | none => simp [guess_alpha_need, h1, h2]
      | some tree =>
        have hni := no_image_nodes_of_basecolor_none mat tree h1 h2 hb
        have hfind : tree.nodes.find? (fun n => isImageNodeB n && alphaNamed n) = none := by
          apply List.find?_eq_none.mpr
          intro n hn
          simp [hni n hn]
        simp [guess_alpha_need, h1, h2, hasImage, hfind]
    · have h1f : mat.use_nodes = false := by simpa using h1
      simp [guess_alpha_need, h1f]
  · intro hb
    rw [hb]
    by_cases h1 : mat.use_nodes = true
    · cases h2 : mat.node_tree with
      | none => simp [guess_alpha_source_cycles, h1, h2]
      | some tree =>
        have hni := no_image_nodes_of_basecolor_none_cycles mat tree h1 h2 hb
        have hfind : tree.nodes.find? (fun n => isImageNodeB n && alphaNamed n) = none := by
          apply List.find?_eq_none.mpr
          intro n hn
          simp [hni n hn]
        simp [guess_alpha_source_cycles, h1, h2, hasImage, hfind]
    · have h1f : mat.use_nodes = false := by simpa using h1
      simp [guess_alpha_source_cycles, h1f]
  · intro b
    refine ⟨?_, ?_, ?_, ?_⟩ <;> simp [build_simple_cycles_material]
  · intro b ei abm thr c s sv es ec hstr
    refine ⟨?_, rfl, rfl⟩
    simp [build_eevee_toon_material]

/-!
## C4: plausible alpha channel on the base image
-/

/-- Claim C4, amended: with a base-color image found and no
higher-priority alpha rule applicable (no alpha/opacity/transparent-named
image node), the eevee variant returns `FROM_BASE` when the image's
channel count is 4 or its alpha-mode flag is STRAIGHT/PREMUL — it never
consults bit depth — while the cycles variant returns `FROM_BASE`
unconditionally (its "base image exists at all" fallback is enabled), in
particular when the bit depth is at least 32. -/
theorem from_base_when_alpha_likely (mat : Material) (tree : NodeTree)
    (bn : Node) (img : Image)
    (h1 : mat.use_nodes = true) (h2 : mat.node_tree = some tree)
    (hno : tree.nodes.find? (fun n => isImageNodeB n && alphaNamed n) = none)
    (hbn : bn.image = some img) :
    ((img.channels = 4 ∨ img.alpha_mode = "STRAIGHT" ∨ img.alpha_mode = "PREMUL") →
      guess_alpha_need mat (some bn) = ("FROM_BASE", none)) ∧
    guess_alpha_source_cycles mat (some bn) = ("FROM_BASE", none) := by
  constructor
  · intro hdisj
    cases hbm : (mat.blend_method == "OPAQUE") with
    | false =>
      simp [guess_alpha_need, h1, h2, hbm, hasImage, hbn]
    | true =>
      simp only [guess_alpha_need, h1, h2, not_true, if_false, hbm, hasImage, hbn,
        Option.isSome_some, decide_not, Bool.not_true, Bool.false_and, Bool.and_true,
        Bool.false_eq_true, hno]
      rcases hdisj with hch | hmode
      · simp [hch]
      · by_cases hch : (img.channels == 4) = true
        · simp [hch]
        · have hchf : (img.channels == 4) = false := by simpa using hch
          rcases hmode with hm | hm <;> simp [hchf, hm]
  · cases hbm : (mat.blend_method == "OPAQUE") with
    | false =>
      simp [guess_alpha_source_cycles, h1, h2, hbm, hasImage, hbn]
    | true =>
      simp only [guess_alpha_source_cycles, h1, h2, not_true, if_false, hbm, hasImage,
        hbn, Option.isSome_some, decide_not, Bool.not_true, Bool.false_and,
        Bool.and_true, Bool.false_eq_true, hno]
      by_cases hd : 32 ≤ img.depth <;> simp [hd]

/-- Claim C3, counterexample to the claim as stated: a source material with
a non-opaque blend hint and no discoverable base-color image: alpha
classification is `NONE` as claimed, but the eevee toon synthesizer does
not force the material's transparency mode to opaque — it forces blend
mode `CLIP`. -/
theorem c3_eevee_not_forced_opaque :
    matBlendNoImage.blend_method ≠ "OPAQUE" ∧
    guess_basecolor_image_node matBlendNoImage = none ∧
    guess_alpha_need matBlendNoImage (guess_basecolor_image_node matBlendNoImage) =
      ("NONE", none) ∧
    (build_eevee_toon_material none ("NONE", none) "CLIP" (1/2) (62/100) (2/100)
        (1/4) [0, 0, 0, 1] 0 none true).blend_method = "CLIP" ∧
    (build_eevee_toon_material none ("NONE", none) "CLIP" (1/2) (62/100) (2/100)
        (1/4) [0, 0, 0, 1] 0 none true).blend_method ≠ "OPAQUE" := by
  refine ⟨by decide, by decide, by decide, rfl, by decide⟩

/-- Claim C4, counterexample to the claim as stated: an opaque-hinted
material whose base image has bit depth 32 but only 3 channels and no
alpha-mode flag: the claimed disjunction holds (depth ≥ 32), yet the
eevee variant classifies alpha as `NONE`, not `FROM_BASE` — the two
variants do not agree on the claimed rule. -/
theorem c4_eevee_ignores_depth :
    guess_basecolor_image_node matDepth32 = some texNodeDepth32 ∧
    guess_basecolor_image_node_cycles matDepth32 = some texNodeDepth32 ∧
    32 ≤ imgDepth32.depth ∧
    matDepth32.blend_method = "OPAQUE" ∧
    guess_alpha_need matDepth32 (some texNodeDepth32) = ("NONE", none) ∧
    guess_alpha_source_cycles matDepth32 (some texNodeDepth32) = ("FROM_BASE", none) := by
  refine ⟨by decide, by decide, by decide, rfl, by decide, by decide⟩

/-!
## Conversion-loop lemmas (C8, C9)
-/

/-- The cache only ever gains keys it does not yet hold: existing entries
survive the whole run unchanged. -/
theorem convertLoop_cache_monotone (pfx : String) (names : Nat → String)
    (cn ow : Bool) :
    ∀ (slots : List (Option Nat)) (cache : List (Nat × Nat)) (fresh m t : Nat),
      lookupA cache m = some t →
      lookupA (convertLoop pfx names cn ow slots cache fresh).cache m = some t := by
  intro slots
  induction slots with
  | nil => intro cache fresh m t h; simpa [convertLoop] using h
  | cons slot rest ih =>
    intro cache fresh m t h
    cases slot with
    | none => simpa [convertLoop] using ih cache fresh m t h
    | some m2 =>
      by_cases hskip : (strStartsWith (names m2) pfx && !ow) = true
      · simp only [convertLoop, hskip, if_true]
        exact ih cache fresh m t h
      · have hskipf : (strStartsWith (names m2) pfx && !ow) = false := by
          simpa using hskip
        simp only [convertLoop, hskipf, Bool.false_eq_true, if_false]
        cases hl : lookupA cache m2 with
        | some t2 => exact ih cache fresh m t h
        | none =>
          have hne : m2 ≠ m := by
            intro he
            rw [he, h] at hl
            cases hl
          cases cn with
          | true =>
            simp only [if_true]
            exact ih _ _ m t (by simpa [lookupA, hne] using h)
          | false =>
            cases ow with
            | true =>
              simp only [Bool.false_eq_true, if_false, if_true]
              exact ih _ _ m t (by simpa [lookupA, hne] using h)
            | false =>
              simp only [Bool.false_eq_true, if_false]
              exact ih cache fresh m t h

/-- A material already in the cache is never built. -/
theorem convertLoop_cached_not_built (pfx : String) (names : Nat → String)
    (cn ow : Bool) :
    ∀ (slots : List (Option Nat)) (cache : List (Nat × Nat)) (fresh m t : Nat),
      lookupA cache m = some t →
      m ∉ (convertLoop pfx names cn ow slots cache fresh).built := by
  intro slots
  induction slots with
  | nil => intro cache fresh m t h; simp [convertLoop]
  | cons slot rest ih =>
    intro cache fresh m t h
    cases slot with
    | none => simpa [convertLoop] using ih cache fresh m t h
    | some m2 =>
      by_cases hskip : (strStartsWith (names m2) pfx && !ow) = true
      · simp only [convertLoop, hskip, if_true]
        exact ih cache fresh m t h
      · have hskipf : (strStartsWith (names m2) pfx && !ow) = false := by
          simpa using hskip
        simp only [convertLoop, hskipf, Bool.false_eq_true, if_false]
        cases hl : lookupA cache m2 with
        | some t2 => exact ih cache fresh m t h
        | none =>
          have hne : m2 ≠ m := by
            intro he
            rw [he, h] at hl
            cases hl
          cases cn with
          | true =>
            simp only [if_true, List.mem_cons]
            rintro (he | he)
            · exact hne he.symm
            · exact ih _ _ m t (by simpa [lookupA, hne] using h) he
          | false =>
            cases ow with
            | true =>
              simp only [Bool.false_eq_true, if_false, if_true, List.mem_cons]
              rintro (he | he)
              · exact hne he.symm
              · exact ih _ _ m t (by simpa [lookupA, hne] using h) he
            | false =>
              simp only [Bool.false_eq_true, if_false]
              exact ih cache fresh m t h

/-- Inference + synthesis run at most once per source material. -/
theorem convertLoop_built_once (pfx : String) (names : Nat → String)
    (cn ow : Bool) :
    ∀ (slots : List (Option Nat)) (cache : List (Nat × Nat)) (fresh m : Nat),
      countOcc (convertLoop pfx names cn ow slots cache fresh).built m ≤ 1 := by
  intro slots
  induction slots with
  | nil => intro cache fresh m; simp [convertLoop, countOcc]
  | cons slot rest ih =>
    intro cache fresh m
    cases slot with
    | none => simpa [convertLoop] using ih cache fresh m
    | some m2 =>
      by_cases hskip : (strStartsWith (names m2) pfx && !ow) = true
      · simp only [convertLoop, hskip, if_true]
        exact ih cache fresh m
      · have hskipf : (strStartsWith (names m2) pfx && !ow) = false := by
          simpa using hskip
        simp only [convertLoop, hskipf, Bool.false_eq_true, if_false]
        cases hl : lookupA cache m2 with
        | some t2 => exact ih cache fresh m
        | none =>
          cases cn with
          | true =>
            simp only [if_true, countOcc]
            by_cases he : m2 = m
            · subst he
              have hnb : m2 ∉ (convertLoop pfx names true ow rest
                  ((m2, fresh) :: cache) (fresh + 1)).built :=
                convertLoop_cached_not_built pfx names true ow rest _ _ m2 fresh
                  (by simp [lookupA])
              have : countOcc (convertLoop pfx names true ow rest
                  ((m2, fresh) :: cache) (fresh + 1)).built m2 = 0 := by
                revert hnb
                generalize (convertLoop pfx names true ow rest
                  ((m2, fresh) :: cache) (fresh + 1)).built = l
                intro hnb
                induction l with
                | nil => simp [countOcc]
                | cons x xs ihl =>
                  simp only [List.mem_cons, not_or] at hnb
                  simp [countOcc, Ne.symm hnb.1, ihl hnb.2]
              simp [this]
            · simp [he, ih]
          | false =>
            cases ow with
            | true =>
              simp only [Bool.false_eq_true, if_false, if_true, countOcc]
              by_cases he : m2 = m
              · subst he
                have hnb : m2 ∉ (convertLoop pfx names false true rest
                    ((m2, m2) :: cache) fresh).built :=
                  convertLoop_cached_not_built pfx names false true rest _ _ m2 m2
                    (by simp [lookupA])
                have : countOcc (convertLoop pfx names false true rest
                    ((m2, m2) :: cache) fresh).built m2 = 0 := by
                  revert hnb
                  generalize (convertLoop pfx names false true rest
                    ((m2, m2) :: cache) fresh).built = l
                  intro hnb
                  induction l with
                  | nil => simp [countOcc]
                  | cons x xs ihl =>
                    simp only [List.mem_cons, not_or] at hnb
                    simp [countOcc, Ne.symm hnb.1, ihl hnb.2]
                simp [this]
              · simp [he, ih]
            | false =>
              simp only [Bool.false_eq_true, if_false]
              exact ih cache fresh m

theorem countOcc_pos_of_mem : ∀ {l : List Nat} {m : Nat}, m ∈ l → 1 ≤ countOcc l m := by
  intro l
  induction l with
  | nil => intro m h; cases h
  | cons x xs ih =>
    intro m h
    rcases List.mem_cons.mp h with he | hm
    · subst he
      simp only [countOcc, if_pos rfl]
      exact Nat.le_add_right 1 _
    · calc 1 ≤ countOcc xs m := ih hm
        _ ≤ (if x = m then 1 else 0) + countOcc xs m := Nat.le_add_left _ _

/-- With both `create_new` and `overwrite` off, the loop builds nothing
and leaves the cache untouched. -/
theorem convertLoop_inert (pfx : String) (names : Nat → String) :
    ∀ (slots : List (Option Nat)) (cache : List (Nat × Nat)) (fresh : Nat),
      (convertLoop pfx names false false slots cache fresh).cache = cache := by
  intro slots
  induction slots with
  | nil => intro cache fresh; rfl
  | cons slot rest ih =>
    intro cache fresh
    cases slot with
    | none => simpa [convertLoop] using ih cache fresh
    | some m2 =>
      by_cases hskip : (strStartsWith (names m2) pfx && !false) = true
      · simp only [convertLoop, hskip, if_true]
        exact ih cache fresh
      · have hskipf : (strStartsWith (names m2) pfx && !false) = false := by
          simpa using hskip
        simp only [convertLoop, hskipf, Bool.false_eq_true, if_false]
        cases hl : lookupA cache m2 with
        | some t2 => exact ih cache fresh
        | none => exact ih cache fresh

/-- Every processed slot holding source material `m` ends up assigned the
same target: `m` itself when the skip guard fires, otherwise the (stable)
cache entry for `m`. -/
theorem convertLoop_out_target (pfx : String) (names : Nat → String) (cn ow : Bool) :
    ∀ (slots : List (Option Nat)) (cache : List (Nat × Nat)) (fresh i m : Nat),
      slots.get? i = some (some m) →
      (convertLoop pfx names cn ow slots cache fresh).outs.get? i =
        some (some (if strStartsWith (names m) pfx && !ow then m
          else (lookupA (convertLoop pfx names cn ow slots cache fresh).cache m).getD m)) := by
  intro slots
  induction slots with
  | nil => intro cache fresh i m h; simp [List.get?] at h
  | cons slot rest ih =>
    intro cache fresh i m h
    cases i with
    | zero =>
      simp only [List.get?] at h
      cases slot with
      | none => cases h
      | some m2 =>
        have hm2 : m2 = m := by
          injection h with h1
          injection h1
        subst hm2
        by_cases hskip : (strStartsWith (names m2) pfx && !ow) = true
        · simp [convertLoop, hskip]
        · have hskipf : (strStartsWith (names m2) pfx && !ow) = false := by
            simpa using hskip
          simp only [convertLoop, hskipf, Bool.false_eq_true, if_false]
          cases hl : lookupA cache m2 with
          | some t2 =>
            have hfin := convertLoop_cache_monotone pfx names cn ow rest cache fresh m2 t2 hl
            simp [hskipf, hfin]
          | none =>
            cases cn with
            | true =>
              have hfin := convertLoop_cache_monotone pfx names true ow rest
                ((m2, fresh) :: cache) (fresh + 1) m2 fresh (by simp [lookupA])
              simp [hskipf, hfin]
            | false =>
              cases ow with
              | true =>
                have hfin := convertLoop_cache_monotone pfx names false true rest
                  ((m2, m2) :: cache) fresh m2 m2 (by simp [lookupA])
                simp [hskipf, hfin]
              | false =>
                have hfin := convertLoop_inert pfx names rest cache fresh
                simp [hskipf, hfin, hl]
    | succ j =>
      simp only [List.get?] at h
      cases slot with
      | none =>
        simpa [convertLoop] using ih cache fresh j m h
      | some m2 =>
        by_cases hskip : (strStartsWith (names m2) pfx && !ow) = true
        · simp only [convertLoop, hskip, if_true]
          exact ih cache fresh j m h
        · have hskipf : (strStartsWith (names m2) pfx && !ow) = false := by
            simpa using hskip
          simp only [convertLoop, hskipf, Bool.false_eq_true, if_false]
          cases hl : lookupA cache m2 with
          | some t2 => exact ih cache fresh j m h
          | none =>
            cases cn with
            | true => exact ih _ _ j m h
            | false =>
              cases ow with
              | true => exact ih _ _ j m h
              | false => exact ih cache fresh j m h

/-- When some slot holds `m`, `m` is uncached, the skip guard does not
fire for it and a build mode is on, the loop does build `m`. -/
theorem convertLoop_mem_built (pfx : String) (names : Nat → String) (cn ow : Bool) :
    ∀ (slots : List (Option Nat)) (cache : List (Nat × Nat)) (fresh i m : Nat),
      slots.get? i = some (some m) →
      lookupA cache m = none →
      (strStartsWith (names m) pfx && !ow) = false →
      (cn = true ∨ ow = true) →
      m ∈ (convertLoop pfx names cn ow slots cache fresh).built := by
  intro slots
  induction slots with
  | nil => intro cache fresh i m h _ _ _; simp [List.get?] at h
  | cons slot rest ih =>
    intro cache fresh i m h hl hns hmode
    cases slot with
    | none =>
      cases i with
      | zero => simp [List.get?] at h
      | succ j =>
        simp only [List.get?] at h
        simpa [convertLoop] using ih cache fresh j m h hl hns hmode
    | some m2 =>
      by_cases he : m2 = m
      · subst he
        simp only [convertLoop, hns, Bool.false_eq_true, if_false, hl]
        rcases hmode with hcn | how
        · subst hcn
          simp
        · subst how
          cases cn <;> simp
      · have hget : ∀ k, i = Nat.succ k → rest.get? k = some (some m) := by
          intro k hk
          subst hk
          simpa [List.get?] using h
        cases i with
        | zero =>
          simp only [List.get?] at h
          exact absurd (by injection h with h1; injection h1) he
        | succ j =>
          have hj := hget j rfl
          by_cases hskip : (strStartsWith (names m2) pfx && !ow) = true
          · simp only [convertLoop, hskip, if_true]
            exact ih cache fresh j m hj hl hns hmode
          · have hskipf : (strStartsWith (names m2) pfx && !ow) = false := by
              simpa using hskip
            simp only [convertLoop, hskipf, Bool.false_eq_true, if_false]
            cases hl2 : lookupA cache m2 with
            | some t2 => exact ih cache fresh j m hj hl hns hmode
            | none =>
              cases cn with
              | true =>
                simp only [if_true, List.mem_cons]
                exact Or.inr (ih _ _ j m hj (by simpa [lookupA, he] using hl) hns hmode)
              | false =>
                cases ow with
                | true =>
                  simp only [Bool.false_eq_true, if_false, if_true, List.mem_cons]
                  exact Or.inr (ih _ _ j m hj (by simpa [lookupA, he] using hl) hns hmode)
                | false =>
                  exact ih cache fresh j m hj hl hns hmode

/-- With overwrite off, a material whose name carries the marker is never
built anywhere in the run. -/
theorem convertLoop_marked_not_built (pfx : String) (names : Nat → String)
    (cn : Bool) :
    ∀ (slots : List (Option Nat)) (cache : List (Nat × Nat)) (fresh m : Nat),
      strStartsWith (names m) pfx = true →
      m ∉ (convertLoop pfx names cn false slots cache fresh).built := by
  intro slots
  induction slots with
  | nil => intro cache fresh m _; simp [convertLoop]
  | cons slot rest ih =>
    intro cache fresh m hname
    cases slot with
    | none => simpa [convertLoop] using ih cache fresh m hname
    | some m2 =>
      by_cases hskip : (strStartsWith (names m2) pfx && !false) = true
      · simp only [convertLoop, hskip, if_true]
        exact ih cache fresh m hname
      · have hskipf : (strStartsWith (names m2) pfx && !false) = false := by
          simpa using hskip
        have hm2 : strStartsWith (names m2) pfx = false := by
          simpa using hskipf
        have hne : m2 ≠ m := by
          intro he
          rw [he, hname] at hm2
          cases hm2
        simp only [convertLoop, hskipf, Bool.false_eq_true, if_false]
        cases hl : lookupA cache m2 with
        | some t2 => exact ih cache fresh m hname
        | none =>
          cases cn with
          | true =>
            simp only [if_true, List.mem_cons]
            rintro (he | he)
            · exact hne he.symm
            · exact ih _ _ m hname he
          | false =>
            simp only [Bool.false_eq_true, if_false]
            exact ih cache fresh m hname

/-- Claim C8: with the overwrite policy disabled, a material already
bearing the output-naming marker of a prior run is skipped by both
conversion loops: every slot referencing it keeps it, and inference +
synthesis never run on it. -/
theorem already_converted_skipped (names : Nat → String) (cn : Bool)
    (slots : List (Option Nat)) (cache : List (Nat × Nat)) (fresh m i : Nat) :
    (strStartsWith (names m) "VRM_TOON_" = true →
      (slots.get? i = some (some m) →
        (convert_object_materials_eevee names cn false slots cache
            fresh).outs.get? i = some (some m)) ∧
      m ∉ (convert_object_materials_eevee names cn false slots cache fresh).built) ∧
    (strStartsWith (names m) "VRM_SIMPLE_" = true →
      (slots.get? i = some (some m) →
        (convert_object_materials_cycles names cn false slots cache
            fresh).outs.get? i = some (some m)) ∧
      m ∉ (convert_object_materials_cycles names cn false slots cache fresh).built) := by
  constructor
  · intro hname
    constructor
    · intro hi
      have ht := convertLoop_out_target "VRM_TOON_" names cn false slots cache fresh i m hi
      simp only [convert_object_materials_eevee]
      rw [ht]
      simp [hname]
    · exact convertLoop_marked_not_built "VRM_TOON_" names cn slots cache fresh m hname
  · intro hname
    constructor
    · intro hi
      have ht := convertLoop_out_target "VRM_SIMPLE_" names cn false slots cache fresh i m hi
      simp only [convert_object_materials_cycles]
      rw [ht]
      simp [hname]
    · exact convertLoop_marked_not_built "VRM_SIMPLE_" names cn slots cache fresh m hname

/-- Claim C9: within one conversion run, two slots referencing the same
source material: synthesis runs at most once for it, both slots end up
assigned the same target, and when the material is uncached, unskipped
and a build mode is on, synthesis runs exactly once — for both loops. -/
theorem same_source_single_synthesis (names : Nat → String) (cn ow : Bool)
    (slots : List (Option Nat)) (cache : List (Nat × Nat)) (fresh m i j : Nat)
    (hi : slots.get? i = some (some m)) (hj : slots.get? j = some (some m)) :
    (countOcc (convert_object_materials_eevee names cn ow slots cache
        fresh).built m ≤ 1 ∧
      (convert_object_materials_eevee names cn ow slots cache fresh).outs.get? i =
        (convert_object_materials_eevee names cn ow slots cache fresh).outs.get? j ∧
      (lookupA cache m = none →
        (strStartsWith (names m) "VRM_TOON_" && !ow) = false →
        (cn = true ∨ ow = true) →
        countOcc (convert_object_materials_eevee names cn ow slots cache
          fresh).built m = 1)) ∧
    (countOcc (convert_object_materials_cycles names cn ow slots cache
        fresh).built m ≤ 1 ∧
      (convert_object_materials_cycles names cn ow slots cache fresh).outs.get? i =
        (convert_object_materials_cycles names cn ow slots cache fresh).outs.get? j ∧
      (lookupA cache m = none →
        (strStartsWith (names m) "VRM_SIMPLE_" && !ow) = false →
        (cn = true ∨ ow = true) →
        countOcc (convert_object_materials_cycles names cn ow slots cache
          fresh).built m = 1)) := by
  constructor
  · refine ⟨convertLoop_built_once "VRM_TOON_" names cn ow slots cache fresh m, ?_, ?_⟩
    · simp only [convert_object_materials_eevee]
      rw [convertLoop_out_target "VRM_TOON_" names cn ow slots cache fresh i m hi,
        convertLoop_out_target "VRM_TOON_" names cn ow slots cache fresh j m hj]
    · intro hl hns hmode
      refine Nat.le_antisymm
        (convertLoop_built_once "VRM_TOON_" names cn ow slots cache fresh m)
        (countOcc_pos_of_mem
          (convertLoop_mem_built "VRM_TOON_" names cn ow slots cache fresh i m
            hi hl hns hmode))
  · refine ⟨convertLoop_built_once "VRM_SIMPLE_" names cn ow slots cache fresh m, ?_, ?_⟩
    · simp only [convert_object_materials_cycles]
      rw [convertLoop_out_target "VRM_SIMPLE_" names cn ow slots cache fresh i m hi,
        convertLoop_out_target "VRM_SIMPLE_" names cn ow slots cache fresh j m hj]
    · intro hl hns hmode
      refine Nat.le_antisymm
        (convertLoop_built_once "VRM_SIMPLE_" names cn ow slots cache fresh m)
        (countOcc_pos_of_mem
          (convertLoop_mem_built "VRM_SIMPLE_" names cn ow slots cache fresh i m
            hi hl hns hmode))

/-!
## Witnesses
-/

/-- Witness for C2 on the cyclic two-node graph: all hypotheses hold at
start socket 0 with an empty visited set, and the conclusions evaluate. -/
theorem upstream_trace_visited_bounded_witness :
    ((find_upstream_image_from_socket cyclicTree 12 (some 0) []).2).Nodup ∧
    ((find_upstream_image_from_socket cyclicTree 12 (some 0) []).2).length ≤
      socketCount cyclicTree ∧
    find_upstream_image_from_socket cyclicTree 12 (some 1) [1, 0] = (none, [1, 0]) := by
  have h := upstream_trace_visited_bounded cyclicTree 12 0 [] List.nodup_nil
    (by intro x hx; cases hx) (by decide)
  exact ⟨h.1, h.2.2.1, h.2.2.2 1 [1, 0] (by decide)⟩

/-- Witness for the amended C3 at the concrete blend-hinted, image-free
material. -/
theorem alpha_none_when_no_basecolor_witness :
    guess_alpha_need matBlendNoImage (guess_basecolor_image_node matBlendNoImage) =
      ("NONE", none) ∧
    (build_simple_cycles_material none ("NONE", none)).blend_method = "OPAQUE" :=
  ⟨(alpha_none_when_no_basecolor matBlendNoImage).1 (by decide),
   ((alpha_none_when_no_basecolor matBlendNoImage).2.2.1 none).2.2.1⟩

/-- Witness for the amended C4 at a 4-channel STRAIGHT-alpha base image. -/
theorem from_base_when_alpha_likely_witness :
    guess_alpha_need matRGBA (some texNodeRGBA) = ("FROM_BASE", none) ∧
    guess_alpha_source_cycles matRGBA (some texNodeRGBA) = ("FROM_BASE", none) :=
  ⟨(from_base_when_alpha_likely matRGBA treeRGBA texNodeRGBA imgRGBA rfl rfl
      (by decide) rfl).1 (Or.inl rfl),
   (from_base_when_alpha_likely matRGBA treeRGBA texNodeRGBA imgRGBA rfl rfl
      (by decide) rfl).2⟩

/-- Witness for C6: zero read strength with a non-black static emission
color is bumped to 1 and the principled result is accepted. -/
theorem guess_emission_principled_ok_witness :
    (principled_emission treeEmissive principledEmissive).2.1 = 1 ∧
    guess_emission_info matEmissive = principled_emission treeEmissive principledEmissive :=
  ⟨(guess_emission_principled_ok matEmissive treeEmissive principledEmissive rfl rfl
      (by decide)).1 (by decide) (by decide),
   (guess_emission_principled_ok matEmissive treeEmissive principledEmissive rfl rfl
      (by decide)).2.2.1 (by decide)⟩

/-- Witness for C7: an emission image with zero detected strength still
yields a written strength of 1 (= `max 0 1`). -/
theorem eevee_emission_strength_policy_witness :
    (build_eevee_toon_material none ("NONE", none) "CLIP" (1/2) (62/100) (2/100)
        (1/4) [0, 0, 0, 1] 0 (some texNodeRGBA) true).emission_strength_value =
      some 1 := by
  have h := (eevee_emission_strength_policy none ("NONE", none) "CLIP" (1/2)
    (62/100) (2/100) (1/4) [0, 0, 0, 1] 0 (some texNodeRGBA) true rfl).1
    (Or.inr rfl)
  exact h.1.trans (congrArg some (max_eq_right (by norm_num)))

/-- Witness for C8: a marker-named material survives both loops untouched. -/
theorem already_converted_skipped_witness :
    (convert_object_materials_eevee namesMarked true false [some 0] [] 5).outs.get? 0 =
      some (some 0) ∧
    (convert_object_materials_cycles namesMarked true false [some 1] [] 5).outs.get? 0 =
      some (some 1) :=
  ⟨((already_converted_skipped namesMarked true [some 0] [] 5 0 0).1 (by decide)).1 rfl,
   ((already_converted_skipped namesMarked true [some 1] [] 5 1 0).2 (by decide)).1 rfl⟩

/-- Witness for C9: two slots with the same source material are both
assigned the one synthesized target, built exactly once. -/
theorem same_source_single_synthesis_witness :
    countOcc (convert_object_materials_eevee namesPlain true false
      [some 3, some 3] [] 7).built 3 = 1 ∧
    (convert_object_materials_eevee namesPlain true false
        [some 3, some 3] [] 7).outs.get? 0 =
      (convert_object_materials_eevee namesPlain true false
        [some 3, some 3] [] 7).outs.get? 1 := by
  have h := same_source_single_synthesis namesPlain true false [some 3, some 3]
    [] 7 3 0 1 rfl rfl
  exact ⟨h.1.2.2 rfl (by decide) (Or.inl rfl), h.1.2.1⟩
